import Mathlib

/-!
Shallow embedding of the WarframeOverlay capture pipeline: the
change-detection state machine and poll loop of `capture.py` (`EnergyMonitor`),
the hard color-segmentation policy (`_preprocess_image`), the affine skew
correction (`_apply_skew`), and the soft display filter
(`_preprocess_for_display`), together with the configuration data of
`config.py`.  Machine integers are modelled as `Int`, the Python float `skew`
and the coordinate arithmetic as `Rat`, and the float32 soft-alpha pipeline as
a real-valued idealization.
-/

namespace WFOverlay

/-- An RGB pixel; channel values are integers (0 to 255 in practice). -/
structure RGB where
  r : ℤ
  g : ℤ
  b : ℤ
deriving DecidableEq

/-- Display mode for alerts (`config.py`, `AlertMode`). -/
inductive AlertMode
  | image
  | number
  | filtered
deriving DecidableEq

/-- Events emitted by the monitor thread (`capture.py` lines 10 to 13):
`energy_changed`, `threshold_crossed`, `filtered_image`, `ocr_error`. -/
inductive Event
  | energyChanged (v : ℤ)
  | thresholdCrossed (b : Bool)
  | filteredImage
  | ocrError (msg : String)
deriving DecidableEq

/-- What drives a single poll cycle: either a captured frame, together with
the value the OCR engine would recognize on it (`none` when no all-digit text
is read), or an unhandled exception raised somewhere inside the cycle. -/
inductive CycleInput
  | frame (ocr : Option ℤ)
  | exn (msg : String)
deriving DecidableEq

/-- Mutable monitor state (`EnergyMonitor.__init__`, lines 20 to 21):
`self._last_energy = -1` and `self._last_below_threshold = None`. -/
structure MonitorState where
  lastEnergy : ℤ
  lastBelow : Option Bool
deriving DecidableEq

/-- The fresh state a new `EnergyMonitor` starts from. -/
def initState : MonitorState := ⟨-1, none⟩

/-- `_capture_and_read` (lines 85 to 117): in FILTERED mode it returns no
energy reading and a display image; in the other modes it returns the OCR
result (already `none` on any recognition failure) and the hard-filtered
image.  The boolean records that the returned image is not `None`; both
branches of the source return an actual image. -/
def captureAndRead (mode : AlertMode) (ocr : Option ℤ) : Option ℤ × Bool :=
  if mode = AlertMode.filtered then (none, true) else (ocr, true)

/-- The fixed backoff sleep after an unhandled cycle exception
(`self.msleep(1000)`, line 80). -/
def backoffMs : ℕ := 1000

/-- One iteration of the `while self._running` loop body (`run`, lines 40 to
80).  Returns the updated state, the events emitted during the cycle in
emission order, and the sleep in milliseconds before the next cycle. -/
def runStep (threshold : ℤ) (pollingRate : ℕ) (mode : AlertMode)
    (st : MonitorState) (inp : CycleInput) : MonitorState × List Event × ℕ :=
  match inp with
  | CycleInput.exn msg => (st, [Event.ocrError msg], backoffMs)
  | CycleInput.frame ocr =>
      let res := captureAndRead mode ocr
      let imgEvents : List Event :=
        if mode = AlertMode.filtered ∧ res.2 = true then [Event.filteredImage] else []
      match res.1 with
      | some e =>
          let p1 : MonitorState × List Event :=
            if e ≠ st.lastEnergy then
              ({ st with lastEnergy := e }, [Event.energyChanged e])
            else (st, [])
          let below : Bool := decide (e < threshold)
          let p2 : MonitorState × List Event :=
            if some below ≠ p1.1.lastBelow then
              ({ p1.1 with lastBelow := some below }, [Event.thresholdCrossed below])
            else (p1.1, [])
          (p2.1, imgEvents ++ p1.2 ++ p2.2, pollingRate)
      | none =>
          if mode = AlertMode.filtered then
            if st.lastBelow ≠ some true then
              ({ st with lastBelow := some true },
                imgEvents ++ [Event.thresholdCrossed true], pollingRate)
            else (st, imgEvents, pollingRate)
          else (st, imgEvents, pollingRate)

/-- The poll loop (`run`): one cycle per element of `inputs`; the list simply
ends when stop is requested, since cancellation is only observed between
cycles.  Yields, per cycle, the emitted events and the sleep that follows. -/
def runTrace (threshold : ℤ) (pollingRate : ℕ) (mode : AlertMode) :
    MonitorState → List CycleInput → List (List Event × ℕ)
  | _, [] => []
  | st, inp :: rest =>
      let out := runStep threshold pollingRate mode st inp
      (out.2.1, out.2.2) :: runTrace threshold pollingRate mode out.1 rest

/-- The concatenated event stream of a trace, in emission order. -/
def traceEvents : List (List Event × ℕ) → List Event
  | [] => []
  | c :: rest => c.1 ++ traceEvents rest

/-- Payloads of the `threshold_crossed` events of a stream, in order. -/
def threshPayloads (evs : List Event) : List Bool :=
  evs.filterMap fun e =>
    match e with
    | Event.thresholdCrossed b => some b
    | _ => none

/-- Payloads of the `energy_changed` events of a stream, in order. -/
def energyPayloads (evs : List Event) : List ℤ :=
  evs.filterMap fun e =>
    match e with
    | Event.energyChanged v => some v
    | _ => none

/-- Feed a sequence of successfully recognized values through the loop in
NUMBER mode, from a fresh monitor, and collect every event emitted. -/
def feedValues (threshold : ℤ) (vals : List ℤ) : List Event :=
  traceEvents (runTrace threshold 100 AlertMode.number initState
    (vals.map fun v => CycleInput.frame (some v)))

/-- Claim C1 (counterexample): with threshold 50 and recognized sequence
[60, 40, 40, 55, 30] fed to a fresh detector, the code emits FOUR
`ThresholdCrossed` events, not three: the very first observation 60 already
fires with payload `false`, because the initial unset `last_below_threshold`
(`None`) differs from `False` under Python inequality. -/
theorem threshold_first_observation_fires :
    threshPayloads (feedValues 50 [60, 40, 40, 55, 30]) = [false, true, false, true] ∧
      (threshPayloads (feedValues 50 [60, 40, 40, 55, 30])).length ≠ 3 := by
  constructor
  · decide
  · decide

/-- Claim C1 (amended): for threshold 50 and recognized sequence
[60, 40, 40, 55, 30] from a fresh detector, exactly four `ThresholdCrossed`
events are emitted: payload `false` at the first observation 60 (the unset
initial state counts as a transition), `true` at the transition into 40,
`false` into 55, and `true` into 30; none for the repeated 40. -/
theorem threshold_event_sequence :
    threshPayloads (feedValues 50 [60, 40, 40, 55, 30]) = [false, true, false, true] := by
  decide

/-- Claim C8: a fresh detector fed [50, 50, 62, 62, 40] emits exactly three
`EnergyChanged` events, with payloads 50 (on first observation, since the
initial sentinel is -1), 62 and 40; repeated equal values emit nothing. -/
theorem energy_event_sequence :
    energyPayloads (feedValues 50 [50, 50, 62, 62, 40]) = [50, 62, 40] := by
  decide

/-- Helper: the loop performs one cycle per input; an exception never shortens
the trace, since the loop only stops when the input list does. -/
theorem runTrace_length (threshold : ℤ) (pollingRate : ℕ) (mode : AlertMode) :
    ∀ (inputs : List CycleInput) (st : MonitorState),
      (runTrace threshold pollingRate mode st inputs).length = inputs.length := by
  intro inputs
  induction inputs with
  | nil => intro st; rfl
  | cons inp rest ih => intro st; simp [runTrace, ih]

/-- Claim C3: an unhandled cycle exception emits exactly one recoverable-error
(`ocr_error`) event, leaves the detector state untouched, makes the delay
before the next cycle the fixed 1000 ms backoff (different from the polling
interval whenever they differ), and the loop keeps running: every remaining
cycle is still processed. -/
theorem exception_backoff_continues (threshold : ℤ) (pollingRate : ℕ)
    (mode : AlertMode) (st : MonitorState) (msg : String) (rest : List CycleInput) :
    runStep threshold pollingRate mode st (CycleInput.exn msg) =
        (st, [Event.ocrError msg], backoffMs) ∧
      (pollingRate ≠ backoffMs →
        (runStep threshold pollingRate mode st (CycleInput.exn msg)).2.2 ≠ pollingRate) ∧
      (runTrace threshold pollingRate mode st (CycleInput.exn msg :: rest)).length =
        rest.length + 1 := by
  refine ⟨rfl, ?_, ?_⟩
  · intro h
    simpa [runStep] using fun hq => h hq.symm
  · simp [runTrace, runTrace_length]

/-- Claim C3 (witness): concrete run at threshold 50 and polling interval
100 ms, with one failing cycle followed by one ordinary frame. -/
theorem exception_backoff_continues_witness :
    runStep 50 100 AlertMode.number initState (CycleInput.exn "boom") =
        (initState, [Event.ocrError "boom"], backoffMs) ∧
      (runStep 50 100 AlertMode.number initState (CycleInput.exn "boom")).2.2 ≠ 100 ∧
      (runTrace 50 100 AlertMode.number initState
        [CycleInput.exn "boom", CycleInput.frame (some 1)]).length = 1 + 1 :=
  ⟨(exception_backoff_continues 50 100 AlertMode.number initState "boom"
      [CycleInput.frame (some 1)]).1,
    (exception_backoff_continues 50 100 AlertMode.number initState "boom"
      [CycleInput.frame (some 1)]).2.1 (by decide),
    (exception_backoff_continues 50 100 AlertMode.number initState "boom"
      [CycleInput.frame (some 1)]).2.2⟩

/-- Helper: once the latch `last_below_threshold = True` is set, no further
`threshold_crossed` event is ever emitted in FILTERED mode. -/
theorem filtered_latched_no_thresh (threshold : ℤ) (pollingRate : ℕ) :
    ∀ (inputs : List CycleInput) (st : MonitorState), st.lastBelow = some true →
      threshPayloads (traceEvents
        (runTrace threshold pollingRate AlertMode.filtered st inputs)) = [] := by
  intro inputs
  induction inputs with
  | nil => intro st _; rfl
  | cons inp rest ih =>
      intro st h
      cases inp with
      | exn msg =>
          simpa [runTrace, runStep, traceEvents, threshPayloads] using ih st h
      | frame ocr =>
          simpa [runTrace, runStep, captureAndRead, traceEvents, threshPayloads, h]
            using ih st h

/-- Helper: FILTERED-mode cycles never emit an `energy_changed` event, from
any state. -/
theorem filtered_no_energy (threshold : ℤ) (pollingRate : ℕ) :
    ∀ (inputs : List CycleInput) (st : MonitorState),
      energyPayloads (traceEvents
        (runTrace threshold pollingRate AlertMode.filtered st inputs)) = [] := by
  intro inputs
  induction inputs with
  | nil => intro st; rfl
  | cons inp rest ih =>
      intro st
      cases inp with
      | exn msg =>
          simpa [runTrace, runStep, traceEvents, energyPayloads] using ih st
      | frame ocr =>
          by_cases h : st.lastBelow = some true
          · simpa [runTrace, runStep, captureAndRead, traceEvents, energyPayloads, h]
              using ih st
          · simpa [runTrace, runStep, captureAndRead, traceEvents, energyPayloads, h]
              using ih { st with lastBelow := some true }

/-- Helper: across a whole FILTERED-mode run, the `threshold_crossed` events
number at most one, and any that fires carries payload `true`. -/
theorem filtered_thresh_at_most_once (threshold : ℤ) (pollingRate : ℕ) :
    ∀ (inputs : List CycleInput) (st : MonitorState),
      threshPayloads (traceEvents
          (runTrace threshold pollingRate AlertMode.filtered st inputs)) = [] ∨
        threshPayloads (traceEvents
          (runTrace threshold pollingRate AlertMode.filtered st inputs)) = [true] := by
  intro inputs
  induction inputs with
  | nil => intro st; exact Or.inl rfl
  | cons inp rest ih =>
      intro st
      by_cases h : st.lastBelow = some true
      · exact Or.inl (filtered_latched_no_thresh threshold pollingRate (inp :: rest) st h)
      · cases inp with
        | exn msg =>
            simpa [runTrace, runStep, traceEvents, threshPayloads] using ih st
        | frame ocr =>
            right
            have hrest := filtered_latched_no_thresh threshold pollingRate rest
              { st with lastBelow := some true } rfl
            simpa [runTrace, runStep, captureAndRead, traceEvents, threshPayloads, h]
              using hrest

/-- Claim C10: while the display mode stays FILTERED, the recognition result
is never consulted (`_capture_and_read` returns no reading whatever the OCR
engine would say), no `EnergyChanged` event is ever emitted, and at most one
`ThresholdCrossed` fires across the whole run, necessarily with payload
`true`; in particular `ThresholdCrossed(false)` never occurs. -/
theorem filtered_mode_latch (threshold : ℤ) (pollingRate : ℕ)
    (inputs : List CycleInput) :
    (∀ ocr, captureAndRead AlertMode.filtered ocr = (none, true)) ∧
      energyPayloads (traceEvents
        (runTrace threshold pollingRate AlertMode.filtered initState inputs)) = [] ∧
      (threshPayloads (traceEvents
          (runTrace threshold pollingRate AlertMode.filtered initState inputs)) = [] ∨
        threshPayloads (traceEvents
          (runTrace threshold pollingRate AlertMode.filtered initState inputs)) = [true]) :=
  ⟨fun _ => rfl, filtered_no_energy threshold pollingRate inputs initState,
    filtered_thresh_at_most_once threshold pollingRate inputs initState⟩

/-- Hard-policy per-pixel classification (`_preprocess_image`, lines 161 to
168): a pixel matches when all three channel differences lie within the
tolerance (independent per-channel box test). -/
def hardMatch (target : RGB) (tolerance : ℤ) (p : RGB) : Bool :=
  decide (|p.r - target.r| ≤ tolerance) &&
    decide (|p.g - target.g| ≤ tolerance) &&
    decide (|p.b - target.b| ≤ tolerance)

/-- Binary mask value of a pixel (`np.where(matches, 255, 0)`, line 171). -/
def maskValue (target : RGB) (tolerance : ℤ) (p : RGB) : ℤ :=
  if hardMatch target tolerance p then 255 else 0

/-- The matching coordinates contributed by one buffer row. -/
def rowMatched (target : RGB) (tolerance : ℤ) (i : ℕ) (row : List RGB) :
    List (ℕ × ℕ) :=
  row.enum.filterMap fun jp =>
    if hardMatch target tolerance jp.2 then some (i, jp.1) else none

/-- Coordinates (row, column) of the pixels the hard-policy mask marks as
matching (the `matches` array of lines 163 to 168). -/
def matchedCoords (target : RGB) (tolerance : ℤ) (buf : List (List RGB)) :
    List (ℕ × ℕ) :=
  (buf.enum.map fun irow => rowMatched target tolerance irow.1 irow.2).flatten

/-- Helper: the per-pixel box test is monotone in the tolerance. -/
theorem hardMatch_mono (target : RGB) {t1 t2 : ℤ} (p : RGB) (h : t1 ≤ t2)
    (hm : hardMatch target t1 p = true) : hardMatch target t2 p = true := by
  simp only [hardMatch, Bool.and_eq_true, decide_eq_true_eq, abs_le] at hm ⊢
  omega

/-- Claim C7: for a fixed target color and buffer, enlarging the tolerance
only enlarges the matched-pixel set: every coordinate matched at tolerance t1
is matched at any tolerance t2 at least as large. -/
theorem matched_monotone_in_tolerance (target : RGB) (t1 t2 : ℤ)
    (buf : List (List RGB)) (h : t1 ≤ t2) :
    ∀ c ∈ matchedCoords target t1 buf, c ∈ matchedCoords target t2 buf := by
  intro c hc
  simp only [matchedCoords, List.mem_flatten, List.mem_map] at hc ⊢
  obtain ⟨l, ⟨irow, hrow, rfl⟩, hcl⟩ := hc
  refine ⟨rowMatched target t2 irow.1 irow.2, ⟨irow, hrow, rfl⟩, ?_⟩
  simp only [rowMatched, List.mem_filterMap] at hcl ⊢
  obtain ⟨jp, hjp, hif⟩ := hcl
  refine ⟨jp, hjp, ?_⟩
  by_cases hm : hardMatch target t1 jp.2 = true
  · rw [if_pos (hardMatch_mono target jp.2 h hm)]
    rwa [if_pos hm] at hif
  · rw [if_neg hm] at hif
    cases hif

/-- Claim C7 (witness): a 1-by-2 buffer whose second pixel (3,3,3) matches the
target (0,0,0) at tolerance 5, hence also at tolerance 15. -/
theorem matched_monotone_in_tolerance_witness :
    (5 : ℤ) ≤ 15 ∧
      ((0, 1) : ℕ × ℕ) ∈ matchedCoords ⟨0, 0, 0⟩ 15 [[⟨0, 0, 0⟩, ⟨3, 3, 3⟩]] :=
  ⟨by decide,
    matched_monotone_in_tolerance ⟨0, 0, 0⟩ 5 15 [[⟨0, 0, 0⟩, ⟨3, 3, 3⟩]]
      (by decide) (0, 1) (by decide)⟩

/-- Coefficients (a, b, c, d, e, f) of the PIL affine transform: the output
pixel at column x and row y samples the input at position
(a*x + b*y + c, d*x + e*y + f), as the source's own comment on lines 128 to
129 states. -/
structure AffineCoeffs where
  a : ℚ
  b : ℚ
  c : ℚ
  d : ℚ
  e : ℚ
  f : ℚ
deriving DecidableEq

/-- The coefficient tuple `_apply_skew` passes to `Image.transform`
(lines 131 to 137): (1, 0, 0, -skew, 1, skew*width) for positive skew and
(1, 0, 0, -skew, 1, 0) otherwise. -/
def skewCoeffs (skew : ℚ) (width : ℕ) : AffineCoeffs :=
  if 0 < skew then ⟨1, 0, 0, -skew, 1, skew * (width : ℚ)⟩
  else ⟨1, 0, 0, -skew, 1, 0⟩

/-- Horizontal input coordinate sampled for the output pixel at (row, col). -/
def inputCol (cf : AffineCoeffs) (col row : ℚ) : ℚ :=
  cf.a * col + cf.b * row + cf.c

/-- Vertical input coordinate sampled for the output pixel at (row, col). -/
def inputRow (cf : AffineCoeffs) (col row : ℚ) : ℚ :=
  cf.d * col + cf.e * row + cf.f

/-- The vertical sampling position the spec prescribes in its section 4.2
(this definition follows the spec's words, for refinement comparison with the
code): `row - skew * (width - col)` for positive skew and `row - skew * col`
for negative skew. -/
def specInputRow (skew width col row : ℚ) : ℚ :=
  if 0 < skew then row - skew * (width - col) else row - skew * col

/-- Claim C2 (counterexample): at skew 1 on a width-2 image, the output pixel
at row 0, column 0 samples input row 2 (that is, row + skew * (width - col)),
while the claimed formula row - skew * (width - col) gives -2; the two
disagree. -/
theorem skew_positive_counterexample :
    inputRow (skewCoeffs 1 2) 0 0 = 2 ∧ specInputRow 1 2 0 0 = -2 ∧
      inputRow (skewCoeffs 1 2) 0 0 ≠ specInputRow 1 2 0 0 := by
  refine ⟨?_, ?_, ?_⟩ <;> norm_num [inputRow, skewCoeffs, specInputRow]

/-- Claim C2 (amended): for skew > 0 each output pixel (row, col) samples the
input at vertical position row + skew * (width - col); for skew < 0, at
row - skew * col; the horizontal position is col, unchanged.  Out-of-bounds
samples are filled with the transparent/black fill color (line 145). -/
theorem skew_sampling_positions (skew : ℚ) (width : ℕ) (col row : ℚ) :
    (0 < skew →
        inputRow (skewCoeffs skew width) col row = row + skew * ((width : ℚ) - col)) ∧
      (skew < 0 →
        inputRow (skewCoeffs skew width) col row = row - skew * col) ∧
      inputCol (skewCoeffs skew width) col row = col := by
  refine ⟨?_, ?_, ?_⟩
  · intro h
    rw [skewCoeffs, if_pos h]
    simp only [inputRow]
    ring
  · intro h
    rw [skewCoeffs, if_neg (by linarith)]
    simp only [inputRow]
    ring
  · by_cases h : 0 < skew <;>
      simp [inputCol, skewCoeffs, h]

/-- Claim C2 (witness): the amended formulas evaluated at skew 1, width 2,
output pixel (0, 0) and at skew -1, width 2, output pixel (0, 3). -/
theorem skew_sampling_positions_witness :
    ((0 : ℚ) < 1 ∧
        inputRow (skewCoeffs 1 2) 0 0 = 0 + 1 * (((2 : ℕ) : ℚ) - 0)) ∧
      ((-1 : ℚ) < 0 ∧
        inputRow (skewCoeffs (-1) 2) 3 0 = 0 - (-1) * 3) :=
  ⟨⟨by norm_num, (skew_sampling_positions 1 2 0 0).1 (by norm_num)⟩,
    ⟨by norm_num, (skew_sampling_positions (-1) 2 3 0).2.1 (by norm_num)⟩⟩

/-- Python `int()` applied to a float: truncation toward zero. -/
def pyInt (q : ℚ) : ℤ := if 0 ≤ q then ⌊q⌋ else ⌈q⌉

/-- The vertical growth `shift = abs(skew * img.width)` (line 125). -/
def shearShift (skew : ℚ) (width : ℕ) : ℚ := |skew * (width : ℚ)|

/-- The output height `new_height = int(img.height + shift)` (line 126). -/
def shearNewHeight (height width : ℕ) (skew : ℚ) : ℤ :=
  pyInt ((height : ℚ) + shearShift skew width)

/-- The output height the spec prescribes in its section 4.2 (the spec's
words, for refinement comparison): input height plus `ceil(|skew| * width)`. -/
def specNewHeight (height width : ℕ) (skew : ℚ) : ℤ :=
  (height : ℤ) + ⌈|skew| * (width : ℚ)⌉

/-- Claim C6 (counterexample): at skew 1/2 on a 3-wide, 1-tall buffer, the
code computes output height int(1 + 1.5) = 2, while height plus
ceil(|skew| * width) = 1 + 2 = 3. -/
theorem shear_height_counterexample :
    shearNewHeight 1 3 (1 / 2) = 2 ∧ specNewHeight 1 3 (1 / 2) = 3 ∧
      shearNewHeight 1 3 (1 / 2) ≠ specNewHeight 1 3 (1 / 2) := by
  have habs : |(1 : ℚ) / 2 * ((3 : ℕ) : ℚ)| = 3 / 2 := by
    rw [show ((1 : ℚ) / 2 * ((3 : ℕ) : ℚ)) = 3 / 2 by norm_num,
      abs_of_nonneg (show (0 : ℚ) ≤ 3 / 2 by norm_num)]
  have habs2 : |(1 : ℚ) / 2| * ((3 : ℕ) : ℚ) = 3 / 2 := by
    rw [abs_of_nonneg (show (0 : ℚ) ≤ 1 / 2 by norm_num)]
    norm_num
  have harg : ((1 : ℕ) : ℚ) + shearShift (1 / 2) 3 = 5 / 2 := by
    rw [shearShift, habs]
    norm_num
  have h1 : shearNewHeight 1 3 (1 / 2) = 2 := by
    rw [shearNewHeight, harg, pyInt, if_pos (by norm_num)]
    rw [Int.floor_eq_iff]
    constructor <;> norm_num
  have h2 : specNewHeight 1 3 (1 / 2) = 3 := by
    have hc : ⌈|(1 : ℚ) / 2| * ((3 : ℕ) : ℚ)⌉ = 2 := by
      rw [habs2, Int.ceil_eq_iff]
      constructor <;> norm_num
    rw [specNewHeight, hc]
    norm_num
  exact ⟨h1, h2, by rw [h1, h2]; decide⟩

/-- Claim C6 (amended): for every skew ≠ 0 the output height of the shear is
the input height plus the FLOOR of |skew| * width — Python's `int()`
truncates the nonnegative sum — not the ceiling. -/
theorem shear_height_formula (height width : ℕ) (skew : ℚ) (_h : skew ≠ 0) :
    shearNewHeight height width skew = (height : ℤ) + ⌊|skew| * (width : ℚ)⌋ := by
  have h0 : (0 : ℚ) ≤ (height : ℚ) + shearShift skew width :=
    add_nonneg (Nat.cast_nonneg height) (abs_nonneg _)
  rw [shearNewHeight, pyInt, if_pos h0, shearShift, abs_mul,
    abs_of_nonneg (show (0 : ℚ) ≤ (width : ℚ) from Nat.cast_nonneg width),
    Int.floor_nat_add height (|skew| * (width : ℚ))]


/-- Claim C6 (witness): the amended formula evaluated at height 1, width 3,
skew 1/2: the output height is 1 + floor(1.5) = 2. -/
theorem shear_height_formula_witness :
    ((1 : ℚ) / 2) ≠ 0 ∧
      shearNewHeight 1 3 (1 / 2) = (1 : ℤ) + ⌊|(1 : ℚ) / 2| * ((3 : ℕ) : ℚ)⌋ :=
  ⟨by norm_num, shear_height_formula 1 3 (1 / 2) (by norm_num)⟩

/-- Euclidean color distance of a pixel from the target
(`_preprocess_for_display`, lines 194 to 197).  Real-valued idealization of
the float32 computation. -/
noncomputable def colorDistance (target p : RGB) : ℝ :=
  Real.sqrt (((p.r : ℝ) - (target.r : ℝ)) ^ 2 + ((p.g : ℝ) - (target.g : ℝ)) ^ 2 +
    ((p.b : ℝ) - (target.b : ℝ)) ^ 2)

/-- `max_distance = tolerance * 1.732` (line 201): the source multiplies by
the literal 1.732, not by the square root of 3. -/
noncomputable def maxColorDistance (tolerance : ℤ) : ℝ := (tolerance : ℝ) * 1.732

/-- `alpha = np.clip(1.0 - (distance / max_distance), 0, 1)` (line 205). -/
noncomputable def rawAlpha (target : RGB) (tolerance : ℤ) (p : RGB) : ℝ :=
  max 0 (min (1 - colorDistance target p / maxColorDistance tolerance) 1)

/-- `alpha = np.power(alpha, 0.7)` (line 208). -/
noncomputable def boostAlpha (target : RGB) (tolerance : ℤ) (p : RGB) : ℝ :=
  rawAlpha target tolerance p ^ (0.7 : ℝ)

/-- `(alpha * 255).astype(np.uint8)` (line 209): converting a float in
[0, 255] to uint8 truncates toward zero, so this is the floor. -/
noncomputable def alphaByte (target : RGB) (tolerance : ℤ) (p : RGB) : ℤ :=
  ⌊boostAlpha target tolerance p * 255⌋

/-- One output pixel of `_preprocess_for_display` (lines 212 to 216): white
RGB channels with the computed alpha. -/
noncomputable def displayPixel (target : RGB) (tolerance : ℤ) (p : RGB) :
    ℤ × ℤ × ℤ × ℤ :=
  (255, 255, 255, alphaByte target tolerance p)

/-- The per-pixel alpha the spec's section 4.3 soft policy prescribes (this
definition follows the spec's words, for refinement comparison with the
code): normalization by tolerance times the square root of 3, and ROUNDING
of the boosted alpha times 255. -/
noncomputable def specSoftAlpha (target : RGB) (tolerance : ℤ) (p : RGB) : ℤ :=
  round ((max 0 (min (1 - colorDistance target p / ((tolerance : ℝ) * Real.sqrt 3)) 1)) ^
    (0.7 : ℝ) * 255)

/-- Helper: the tenth power of a 7/10 real power is the seventh power. -/
theorem rpow_seven_tenths_pow {a : ℝ} (ha : 0 ≤ a) :
    (a ^ ((7 : ℝ) / 10)) ^ (10 : ℕ) = a ^ (7 : ℕ) := by
  rw [← Real.rpow_natCast (a ^ ((7 : ℝ) / 10)) 10, ← Real.rpow_mul ha,
    ← Real.rpow_natCast a 7]
  norm_num

/-- Helper: an upper bound on a 7/10 real power from a rational power
comparison. -/
theorem rpow_seven_tenths_lt {a c : ℝ} (ha : 0 ≤ a) (hc : 0 ≤ c)
    (h : a ^ (7 : ℕ) < c ^ (10 : ℕ)) : a ^ ((7 : ℝ) / 10) < c := by
  by_contra hle
  push_neg at hle
  have hp := pow_le_pow_left₀ hc hle 10
  rw [rpow_seven_tenths_pow ha] at hp
  linarith

/-- Helper: a lower bound on a 7/10 real power from a rational power
comparison. -/
theorem lt_rpow_seven_tenths {a c : ℝ} (ha : 0 ≤ a) (_hc : 0 ≤ c)
    (h : c ^ (10 : ℕ) < a ^ (7 : ℕ)) : c < a ^ ((7 : ℝ) / 10) := by
  by_contra hle
  push_neg at hle
  have hp := pow_le_pow_left₀ (Real.rpow_nonneg ha _) hle 10
  rw [rpow_seven_tenths_pow ha] at hp
  linarith

/-- Helper: the distance of pixel (3,4,0) from target (0,0,0) is exactly 5. -/
theorem colorDistance_345 : colorDistance ⟨0, 0, 0⟩ ⟨3, 4, 0⟩ = 5 := by
  have harg : colorDistance ⟨0, 0, 0⟩ ⟨3, 4, 0⟩ = Real.sqrt 25 := by
    unfold colorDistance
    norm_num
  rw [harg, show (25 : ℝ) = 5 ^ 2 by norm_num,
    Real.sqrt_sq (by norm_num : (0 : ℝ) ≤ 5)]

/-- Helper: shared lower bound used on both sides of the comparison. -/
theorem base_alpha_lb : (95 : ℝ) / 102 < ((1174 : ℝ) / 1299) ^ ((7 : ℝ) / 10) := by
  refine lt_rpow_seven_tenths (by norm_num) (by norm_num) ?_
  norm_num

/-- Helper: the code's alpha byte at target (0,0,0), tolerance 30, pixel
(3,4,0) is 237 (truncation of roughly 237.56). -/
theorem alphaByte_345 : alphaByte ⟨0, 0, 0⟩ 30 ⟨3, 4, 0⟩ = 237 := by
  have hraw : rawAlpha ⟨0, 0, 0⟩ 30 ⟨3, 4, 0⟩ = 1174 / 1299 := by
    unfold rawAlpha maxColorDistance
    rw [colorDistance_345]
    rw [show (5 : ℝ) / (((30 : ℤ) : ℝ) * 1.732) = 125 / 1299 by norm_num]
    rw [show (1 : ℝ) - 125 / 1299 = 1174 / 1299 by norm_num]
    rw [min_eq_left (by norm_num : (1174 : ℝ) / 1299 ≤ 1),
      max_eq_right (by norm_num : (0 : ℝ) ≤ (1174 : ℝ) / 1299)]
  have hboost : boostAlpha ⟨0, 0, 0⟩ 30 ⟨3, 4, 0⟩ =
      ((1174 : ℝ) / 1299) ^ ((7 : ℝ) / 10) := by
    unfold boostAlpha
    rw [hraw, show (0.7 : ℝ) = 7 / 10 by norm_num]
  have hub : ((1174 : ℝ) / 1299) ^ ((7 : ℝ) / 10) < 14 / 15 := by
    refine rpow_seven_tenths_lt (by norm_num) (by norm_num) ?_
    norm_num
  unfold alphaByte
  rw [hboost, Int.floor_eq_iff]
  constructor
  · have := base_alpha_lb
    push_cast
    nlinarith
  · push_cast
    nlinarith [hub]

/-- Helper: rational bound on the square root of 3 from below. -/
theorem sqrt_three_lb : (1.732 : ℝ) < Real.sqrt 3 := by
  rw [show (1.732 : ℝ) = 433 / 250 by norm_num]
  refine (Real.lt_sqrt (by norm_num)).mpr ?_
  norm_num

/-- Helper: rational bound on the square root of 3 from above. -/
theorem sqrt_three_ub : Real.sqrt 3 < 1.7321 := by
  rw [show (1.7321 : ℝ) = 17321 / 10000 by norm_num]
  refine (Real.sqrt_lt' (by norm_num)).mpr ?_
  norm_num

/-- Helper: the spec-prescribed alpha at target (0,0,0), tolerance 30, pixel
(3,4,0) is 238 (rounding of roughly 237.56). -/
theorem specSoftAlpha_345 : specSoftAlpha ⟨0, 0, 0⟩ 30 ⟨3, 4, 0⟩ = 238 := by
  have hs1 := sqrt_three_lb
  have hs2 := sqrt_three_ub
  have hspos : (0 : ℝ) < Real.sqrt 3 := by linarith
  have hdpos : (0 : ℝ) < ((30 : ℤ) : ℝ) * Real.sqrt 3 := by
    push_cast
    nlinarith
  set q : ℝ := (5 : ℝ) / (((30 : ℤ) : ℝ) * Real.sqrt 3) with hq
  have hq_pos : 0 < q := div_pos (by norm_num) hdpos
  have hq_ub : q < 125 / 1299 := by
    rw [hq, show (125 : ℝ) / 1299 = 5 / (1299 / 25) by norm_num]
    refine (div_lt_div_iff_of_pos_left (by norm_num) hdpos (by norm_num)).mpr ?_
    push_cast
    nlinarith
  have hq_lb : (5000 : ℝ) / 51963 < q := by
    rw [hq, show (5000 : ℝ) / 51963 = 5 / (51963 / 1000) by norm_num]
    refine (div_lt_div_iff_of_pos_left (by norm_num) (by norm_num) hdpos).mpr ?_
    push_cast
    nlinarith
  have ha_lb : (1174 : ℝ) / 1299 < 1 - q := by
    have : (1174 : ℝ) / 1299 = 1 - 125 / 1299 := by norm_num
    linarith
  have ha_ub : 1 - q < 46963 / 51963 := by
    have : (46963 : ℝ) / 51963 = 1 - 5000 / 51963 := by norm_num
    linarith
  have hclip : max 0 (min (1 - q) 1) = 1 - q := by
    rw [min_eq_left (by linarith), max_eq_right (by nlinarith)]
  have hmono_lb : ((1174 : ℝ) / 1299) ^ ((7 : ℝ) / 10) ≤ (1 - q) ^ ((7 : ℝ) / 10) :=
    Real.rpow_le_rpow (by norm_num) (le_of_lt ha_lb) (by norm_num)
  have hmono_ub : (1 - q) ^ ((7 : ℝ) / 10) ≤ ((46963 : ℝ) / 51963) ^ ((7 : ℝ) / 10) :=
    Real.rpow_le_rpow (by nlinarith) (le_of_lt ha_ub) (by norm_num)
  have hub : ((46963 : ℝ) / 51963) ^ ((7 : ℝ) / 10) < 159 / 170 := by
    refine rpow_seven_tenths_lt (by norm_num) (by norm_num) ?_
    norm_num
  have hlb := base_alpha_lb
  unfold specSoftAlpha
  rw [colorDistance_345, ← hq, hclip, show (0.7 : ℝ) = 7 / 10 by norm_num, round_eq,
    Int.floor_eq_iff]
  constructor
  · push_cast
    nlinarith
  · push_cast
    nlinarith

/-- Claim C5 (counterexample): at target (0,0,0), tolerance 30, pixel
(3,4,0) the code produces alpha 237 — it truncates `alpha * 255` via the
uint8 cast and normalizes by the literal `tolerance * 1.732` — while the
claimed formula `round(a' * 255)` with normalization by
`tolerance * sqrt(3)` gives 238. -/
theorem soft_alpha_counterexample :
    displayPixel ⟨0, 0, 0⟩ 30 ⟨3, 4, 0⟩ = (255, 255, 255, 237) ∧
      specSoftAlpha ⟨0, 0, 0⟩ 30 ⟨3, 4, 0⟩ = 238 ∧
      displayPixel ⟨0, 0, 0⟩ 30 ⟨3, 4, 0⟩ ≠
        (255, 255, 255, specSoftAlpha ⟨0, 0, 0⟩ 30 ⟨3, 4, 0⟩) := by
  have h1 : displayPixel ⟨0, 0, 0⟩ 30 ⟨3, 4, 0⟩ = (255, 255, 255, 237) := by
    unfold displayPixel
    rw [alphaByte_345]
  refine ⟨h1, specSoftAlpha_345, ?_⟩
  rw [h1, specSoftAlpha_345]
  decide

/-- Claim C5 (amended): for every pixel, target and tolerance > 0, the soft
policy outputs a white pixel (255,255,255) whose alpha is the TRUNCATION
(floor) of a' * 255, where d is the Euclidean distance, a is
clamp(1 - d / (tolerance * 1.732), 0, 1) — the literal 1.732 standing in for
sqrt(3) — and a' = a ^ 0.7; the alpha always lies in 0 to 255. -/
theorem soft_policy_formula (target : RGB) (tolerance : ℤ) (p : RGB)
    (_h : 0 < tolerance) :
    displayPixel target tolerance p =
        (255, 255, 255,
          ⌊(max 0 (min (1 - Real.sqrt (((p.r : ℝ) - (target.r : ℝ)) ^ 2 +
                ((p.g : ℝ) - (target.g : ℝ)) ^ 2 + ((p.b : ℝ) - (target.b : ℝ)) ^ 2) /
              ((tolerance : ℝ) * 1.732)) 1)) ^ ((7 : ℝ) / 10) * 255⌋) ∧
      0 ≤ alphaByte target tolerance p ∧ alphaByte target tolerance p ≤ 255 := by
  have hr0 : 0 ≤ rawAlpha target tolerance p := le_max_left 0 _
  have hr1 : rawAlpha target tolerance p ≤ 1 :=
    max_le (by norm_num) (min_le_right _ 1)
  have hb0 : 0 ≤ boostAlpha target tolerance p := Real.rpow_nonneg hr0 _
  have hb1 : boostAlpha target tolerance p ≤ 1 :=
    Real.rpow_le_one hr0 hr1 (by norm_num)
  refine ⟨?_, ?_, ?_⟩
  · unfold displayPixel alphaByte boostAlpha rawAlpha colorDistance maxColorDistance
    rw [show (0.7 : ℝ) = 7 / 10 by norm_num]
  · exact Int.floor_nonneg.mpr (by nlinarith)
  · calc alphaByte target tolerance p ≤ ⌊(255 : ℝ)⌋ :=
          Int.floor_le_floor (by nlinarith)
      _ = 255 := by norm_num

/-- Claim C5 (witness): the amended statement applied at target (0,0,0),
tolerance 30, pixel (1,2,3). -/
theorem soft_policy_formula_witness :
    (0 : ℤ) < 30 ∧
      0 ≤ alphaByte ⟨0, 0, 0⟩ 30 ⟨1, 2, 3⟩ ∧ alphaByte ⟨0, 0, 0⟩ 30 ⟨1, 2, 3⟩ ≤ 255 :=
  ⟨by decide, (soft_policy_formula ⟨0, 0, 0⟩ 30 ⟨1, 2, 3⟩ (by decide)).2⟩

end WFOverlay
